import Mathlib

/-!
Verification of the resilient orchestration core of the
stock-predict-by-model-ensemble repository: the priority-ordered
circuit-breaking fallback resolver (`backend/data_collector/sources/base.py`,
`backend/data_collector/fallback_manager.py`), the fan-out predictor
orchestrator (`backend/ai_predictor/predictor.py`) and the statistical
ensemble engine (`backend/ensemble/engine.py`).

Modelling conventions:
* Python floats are idealised as exact numbers: ℚ for the arithmetic the
  code performs with field operations, ℝ where `statistics.stdev` takes a
  square root.
* Python's `round(x, 2)` (banker's rounding, half-to-even) is modelled
  exactly by `rndHE`/`round2Q` below.
* External provider calls (network I/O) are modelled by explicit outcome
  parameters: a call either returns a payload, returns `None`, or raises.
* Python dicts that the code iterates over are modelled as association
  lists in insertion order.
-/

/-! ### Half-even rounding, the semantics of Python `round(x, 2)` -/

/-- Round a rational to the nearest integer, ties to the even integer
(Python's `round` builtin). -/
def rndHE (x : ℚ) : ℤ :=
  if x - ⌊x⌋ = 1 / 2 then (if ⌊x⌋ % 2 = 0 then ⌊x⌋ else ⌊x⌋ + 1) else round x

/-- Python `round(x, 2)` on exact rationals. -/
def round2Q (x : ℚ) : ℚ := (rndHE (x * 100) : ℚ) / 100

/-- Round a real to the nearest integer, ties to the even integer. -/
noncomputable def rndHER (x : ℝ) : ℤ := by
  classical
  exact if x - (⌊x⌋ : ℝ) = 1 / 2 then (if ⌊x⌋ % 2 = 0 then ⌊x⌋ else ⌊x⌋ + 1) else round x

/-- Python `round(x, 2)` on reals. -/
noncomputable def round2R (x : ℝ) : ℝ := (rndHER (x * 100) : ℝ) / 100

/-! ### Data sources (`backend/data_collector/sources/base.py`) -/

/-- The realtime payload returned by `DataSource.fetch_realtime`
(`base.py` docstring and §6 of the design): six numeric fields.
A well-formed payload is a non-empty dict, hence truthy in Python. -/
structure Payload where
  current_price : ℚ
  market_cap : ℚ
  trading_volume : ℚ
  trading_value : ℚ
  change_rate : ℚ
  previous_close : ℚ
deriving DecidableEq

/-- The key/value entries of the payload dict, in the order the source
constructs them. -/
def Payload.entries (p : Payload) : List (String × ℚ) :=
  [("current_price", p.current_price),
   ("market_cap", p.market_cap),
   ("trading_volume", p.trading_volume),
   ("trading_value", p.trading_value),
   ("change_rate", p.change_rate),
   ("previous_close", p.previous_close)]

/-- Result of one call to a concrete provider's `fetch_realtime`:
a payload, `None`, or a raised exception. -/
inductive FetchOutcome where
  | ok (p : Payload)
  | noData
  | err
deriving DecidableEq

/-- Whether the fetch produced a payload (`if data:` succeeds,
well-formed payloads being truthy dicts). -/
def FetchOutcome.isOk : FetchOutcome → Bool
  | .ok _ => true
  | .noData => false
  | .err => false

/-- Mutable health state of one `DataSource` (`base.py` lines 20-24). -/
structure DataSource where
  name : String
  priority : Int
  enabled : Bool
  failure_count : Nat
  max_failures : Nat
deriving DecidableEq

/-- `DataSource.__init__`: `enabled = True`, `failure_count = 0`,
`max_failures = 3`. -/
def DataSource.init (name : String) (priority : Int) : DataSource :=
  { name := name, priority := priority, enabled := true,
    failure_count := 0, max_failures := 3 }

/-- `DataSource._record_failure` (`base.py` lines 98-106): increment
`failure_count`; if it has reached `max_failures`, set `enabled = False`. -/
def DataSource.record_failure (s : DataSource) : DataSource :=
  let s' := { s with failure_count := s.failure_count + 1 }
  if s'.max_failures ≤ s'.failure_count then { s' with enabled := false } else s'

/-- `DataSource.reset` (`base.py` lines 108-112). -/
def DataSource.reset (s : DataSource) : DataSource :=
  { s with failure_count := 0, enabled := true }

/-- `DataSource.try_fetch` (`base.py` lines 60-96).  The results of
`supports_market(market)` and `fetch_realtime(symbol, market)` for this
call are passed in as `supports` and `outcome`. -/
def DataSource.try_fetch (s : DataSource) (supports : Bool)
    (outcome : FetchOutcome) : Option Payload × DataSource :=
  if !s.enabled then (none, s)
  else if !supports then (none, s)
  else
    match outcome with
    | .ok p => (some p, { s with failure_count := 0 })
    | .noData => (none, s.record_failure)
    | .err => (none, s.record_failure)

/-- One event in the life of a data source: a guarded fetch trial
(with that call's capability answer and fetch outcome) or a `reset()`. -/
inductive SourceEvent where
  | fetch (supports : Bool) (outcome : FetchOutcome)
  | reset
deriving DecidableEq

/-- Apply one event to a source's state. -/
def SourceEvent.apply (s : DataSource) : SourceEvent → DataSource
  | .fetch supports outcome => (s.try_fetch supports outcome).2
  | .reset => s.reset

/-- Run a sequence of events from a starting state. -/
def runEvents (s : DataSource) (evs : List SourceEvent) : DataSource :=
  evs.foldl SourceEvent.apply s

/-! ### Fallback manager (`backend/data_collector/fallback_manager.py`) -/

/-- One registered source together with the answers the external world
would give it during one `fetch_with_fallback` call. -/
structure ChainSource where
  src : DataSource
  supports : Bool
  outcome : FetchOutcome
deriving DecidableEq

/-- `try_fetch` of a chained source, updating its health state. -/
def ChainSource.step (c : ChainSource) : Option Payload × ChainSource :=
  let r := c.src.try_fetch c.supports c.outcome
  (r.1, { c with src := r.2 })

/-- The new state of a chained source after its trial. -/
def ChainSource.after (c : ChainSource) : ChainSource := c.step.2

/-- A source is actually invoked (not skipped) iff it is enabled and
supports the market. -/
def ChainSource.invoked (c : ChainSource) : Bool :=
  c.src.enabled && c.supports

/-- A source trial succeeds iff it is invoked and its fetch returns a
(truthy) payload. -/
def ChainSource.succeeds (c : ChainSource) : Bool :=
  c.invoked && c.outcome.isOk

/-- The trial loop of `fetch_with_fallback` (`fallback_manager.py` lines
62-68): try each source in order, stopping at the first payload.  The
code first filters to `enabled` sources and then iterates; since
`try_fetch` itself returns `None` immediately for a disabled source and
a source disabled mid-chain has already been tried, iterating in place is
the same and keeps every source's final state in registration position. -/
def chainGo : List ChainSource → Option Payload × List ChainSource
  | [] => (none, [])
  | c :: rest =>
    match c.step with
    | (some p, c') => (some p, c' :: rest)
    | (none, c') =>
      let r := chainGo rest
      (r.1, c' :: r.2)

/-- Python `str.upper()`. -/
def pyUpper (s : String) : String := ⟨s.data.map Char.toUpper⟩

/-- `FallbackManager._get_mock_data` (`fallback_manager.py` lines 74-107).
The two random draws are passed in: `u` is `random.uniform(-0.05, 0.05)`
and `volume` is `random.randint(1000000, 10000000)`. -/
def mockData (market : String) (u : ℚ) (volume : ℕ) : Payload :=
  let base : ℚ :=
    if (["KOSPI", "KOSDAQ", "KRX"] : List String).contains (pyUpper market)
    then 50000 else 150
  let current_price := base * (1 + u)
  let previous_close := base
  { current_price := current_price,
    market_cap := current_price * volume * 100,
    trading_volume := (volume : ℚ),
    trading_value := current_price * volume,
    change_rate := (current_price - previous_close) / previous_close * 100,
    previous_close := previous_close }

/-- `FallbackManager.fetch_with_fallback` (`fallback_manager.py` lines
39-72): run the chain; if no source produced data (in particular if no
source is enabled), return mock data instead of raising. -/
def fetchWithFallback (market : String) (u : ℚ) (volume : ℕ)
    (sources : List ChainSource) : Payload × List ChainSource :=
  match chainGo sources with
  | (some p, l) => (p, l)
  | (none, l) => (mockData market u volume, l)

/-- Stable insertion of a source into a priority-sorted list: it goes
after every strictly lower priority element and before equal ones that
were registered later. -/
def insertByPriority (c : ChainSource) : List ChainSource → List ChainSource
  | [] => [c]
  | d :: ds =>
    if d.src.priority < c.src.priority then d :: insertByPriority c ds
    else c :: d :: ds

/-- `FallbackManager._register_sources`' `self.sources.sort(key=lambda x:
x.priority)`: Python's sort is stable; a stable insertion sort models it. -/
def sortByPriority (l : List ChainSource) : List ChainSource :=
  l.foldr insertByPriority []

/-- The sources on which `fetch_realtime` is actually invoked during the
chain, in trial order: every invoked source up to and including the first
success. -/
def attemptsOf : List ChainSource → List ChainSource
  | [] => []
  | c :: rest =>
    if c.invoked then
      (if c.outcome.isOk then [c] else c :: attemptsOf rest)
    else attemptsOf rest

/-! ### Fan-out predictor orchestrator (`backend/ai_predictor/predictor.py`) -/

/-- Raw response of one predictor call (§6: `{modelIdentifier, rawText,
success}`); the orchestrator never inspects it. -/
structure RawResponse where
  modelIdentifier : String
  rawText : String
  success : Bool
deriving DecidableEq

/-- How one predictor invocation settles: a value, a `None` value, a
timeout (`asyncio.TimeoutError`), or any other raised exception. -/
inductive PredictOutcome where
  | ok (r : RawResponse)
  | noneResult
  | timeout
  | err
deriving DecidableEq

/-- `AIPredictor._safe_predict` (`predictor.py` lines 141-171) combined
with the result post-processing in `predict_all` (lines 120-130): a
timeout or exception becomes `None`, a `None` result stays `None`, a
value is kept. -/
def safePredict : PredictOutcome → Option RawResponse
  | .ok r => some r
  | .noneResult => none
  | .timeout => none
  | .err => none

/-- Which predictors were successfully initialised (`AIPredictor.
_init_predictors`): presence of the keys "GPT", "Gemini", "Claude",
"Ollama" in `self.predictors`. -/
structure PredictorRegistry where
  gpt : Bool
  gemini : Bool
  claude : Bool
  ollama : Bool
deriving DecidableEq

/-- The request mapping: which of the prompt keys "gpt", "gemini",
"claude", "gemma", "qwen" are present in the `prompts` dict. -/
structure Prompts where
  gpt : Bool
  gemini : Bool
  claude : Bool
  gemma : Bool
  qwen : Bool
deriving DecidableEq

/-- The model names dispatched by `predict_all` (`predictor.py` lines
87-110), in dispatch order: a task is created exactly when the predictor
is registered and its prompt key is present. -/
def dispatched (r : PredictorRegistry) (p : Prompts) : List String :=
  (if r.gpt && p.gpt then ["GPT-5.2"] else []) ++
  (if r.gemini && p.gemini then ["Gemini 3.0"] else []) ++
  (if r.claude && p.claude then ["Claude 4.5"] else []) ++
  (if r.ollama && p.gemma then ["Gemma"] else []) ++
  (if r.ollama && p.qwen then ["Qwen"] else [])

/-- `AIPredictor.predict_all` (`predictor.py` lines 70-139).  `b` gives
the settled outcome of each dispatched model's invocation.  The result is
the `predictions` dict: one entry per dispatched model, `None` for
timeouts, errors and empty results. -/
def predictAll (r : PredictorRegistry) (p : Prompts)
    (b : String → PredictOutcome) : List (String × Option RawResponse) :=
  let names := dispatched r p
  if names.isEmpty then []
  else names.map (fun n => (n, safePredict (b n)))

/-! ### Ensemble engine (`backend/ensemble/engine.py`, models in
`backend/models/prediction.py`) -/

/-- `SentimentType` (`models/prediction.py`). -/
inductive SentimentType where
  | positive
  | negative
  | neutral
deriving DecidableEq

/-- `PeriodPrediction`: one model's opinion for one horizon. -/
structure PeriodPrediction where
  price : ℚ
  reason : String
  sentiment : SentimentType
deriving DecidableEq

/-- `ModelPrediction`: one model's opinions keyed by period, with its
success flag.  The timestamp never influences the engine and is omitted. -/
structure ModelPrediction where
  model_name : String
  predictions : List (String × PeriodPrediction)
  success : Bool
deriving DecidableEq

/-- The errors `EnsembleEngine.calculate_ensemble` can raise; all three
are `ValueError`s distinguished by their message. -/
inductive EnsembleError where
  /-- `ValueError("예측 데이터가 비어있습니다")` — empty input map. -/
  | emptyInput
  /-- `ValueError("유효한 예측이 없습니다")` — no valid prediction. -/
  | noValidPredictions
  /-- `ValueError("종합 예측을 생성할 수 없습니다")` — no period ensemble. -/
  | noValidEnsemble
deriving DecidableEq

/-- The result record `EnsemblePrediction` (`models/result.py`): price and
standard deviation are stored rounded to two decimals.  The field
validator `validate_disagreement` runs before `std_dev` is populated
(`std_dev` is declared after `disagreement`), so it never changes the
value the engine computed. -/
structure EnsemblePrediction where
  price : ℚ
  reason : String
  sentiment : SentimentType
  disagreement : Prop
  std_dev : ℝ

/-- Keys of a Python dict/`Counter` in insertion order = the distinct
values in order of first occurrence. -/
def insertionKeys {α : Type} [DecidableEq α] : List α → List α
  | [] => []
  | a :: as => a :: (insertionKeys as).filter (fun b => decide (b ≠ a))

/-- `EnsembleEngine._vote_sentiment` (`engine.py` lines 126-141):
`Counter(sentiments).most_common(1)[0][0]`.  `most_common(1)` scans the
counter's items in key-insertion order keeping the first strict maximum
(CPython's `heapq.nlargest` replaces the incumbent only on a strictly
greater count). -/
def voteSentiment (sentiments : List SentimentType) : SentimentType :=
  match insertionKeys sentiments with
  | [] => .neutral
  | k :: ks =>
    ks.foldl (fun best k' =>
      if sentiments.count best < sentiments.count k' then k' else best) k

/-- `EnsembleEngine._combine_reasons` (`engine.py` lines 143-172):
deduplicate keeping first occurrences, join the first three unique
reasons with " | ", append " 외" iff more than three were unique. -/
def combineReasons (reasons : List String) : String :=
  if reasons.isEmpty then "종합 분석 결과"
  else
    let unique_reasons := insertionKeys reasons
    if 3 < unique_reasons.length then
      String.intercalate " | " (unique_reasons.take 3) ++ " 외"
    else
      String.intercalate " | " unique_reasons

/-- The opinions collected for one period (`engine.py` lines 89-93):
every valid model's prediction that contains the period, in model
iteration order. -/
def periodPredictionsFor (valid : List (String × ModelPrediction))
    (period : String) : List PeriodPrediction :=
  valid.filterMap (fun nm => nm.2.predictions.lookup period)

/-- `sum(prices) / len(prices)`. -/
def meanPrice (prices : List ℚ) : ℚ := prices.sum / prices.length

/-- The sample variance with (n-1) denominator that `statistics.stdev`
takes the square root of. -/
def sampleVar (prices : List ℚ) : ℚ :=
  (prices.map (fun x => (x - meanPrice prices) ^ 2)).sum / (prices.length - 1)

/-- `statistics.stdev(prices) if len(prices) > 1 else 0.0`. -/
noncomputable def stdDevOf (prices : List ℚ) : ℝ :=
  if 1 < prices.length then Real.sqrt ((sampleVar prices : ℚ) : ℝ) else 0

/-- `EnsembleEngine._calculate_period_ensemble` (`engine.py` lines
73-124) for disagreement threshold `t`. -/
noncomputable def calcPeriodEnsemble (t : ℚ)
    (valid : List (String × ModelPrediction)) (period : String) :
    Option EnsemblePrediction :=
  let pp := periodPredictionsFor valid period
  if pp.isEmpty then none
  else
    let prices := pp.map (·.price)
    let avg_price := meanPrice prices
    let std_dev := stdDevOf prices
    some { price := round2Q avg_price,
           reason := combineReasons (pp.map (·.reason)),
           sentiment := voteSentiment (pp.map (·.sentiment)),
           disagreement :=
             if 0 < avg_price then (t : ℝ) < std_dev / (avg_price : ℝ) else False,
           std_dev := round2R std_dev }

/-- The filter `pred.success and pred.predictions` (`engine.py` lines
49-52). -/
def validPredictions (predictions : List (String × ModelPrediction)) :
    List (String × ModelPrediction) :=
  predictions.filter (fun nm => nm.2.success && !nm.2.predictions.isEmpty)

/-- The period ensembles actually produced, keyed by period, for the
period loop `for period in ["1d", "1w", "1m"]`. -/
noncomputable def ensembleByPeriod (t : ℚ)
    (valid : List (String × ModelPrediction)) :
    List (String × EnsemblePrediction) :=
  ["1d", "1w", "1m"].filterMap
    (fun period => (calcPeriodEnsemble t valid period).map (fun e => (period, e)))

/-- `EnsembleEngine.calculate_ensemble` (`engine.py` lines 29-71). -/
noncomputable def calculateEnsemble (t : ℚ)
    (predictions : List (String × ModelPrediction)) :
    Except EnsembleError (List (String × EnsemblePrediction)) :=
  if predictions.isEmpty then .error .emptyInput
  else
    let valid := validPredictions predictions
    if valid.isEmpty then .error .noValidPredictions
    else
      let ensemble := ensembleByPeriod t valid
      if ensemble.isEmpty then .error .noValidEnsemble
      else .ok ensemble

/-- Modelled from the spec (§4.3 step 2e, the claim's tie-break rule "the
value that first reaches the maximum count in provider-iteration order"),
for comparison with the code's `voteSentiment`: among the counted values,
pick the one whose running count is the first to reach the overall
maximum count. -/
def specFirstToReachMax (sentiments : List SentimentType) : SentimentType :=
  match insertionKeys sentiments with
  | [] => .neutral
  | k :: ks =>
    let maxCount := (ks.map sentiments.count).foldl max (sentiments.count k)
    let reachPos (v : SentimentType) : ℕ :=
      ((List.range sentiments.length).find?
        (fun i => maxCount ≤ (sentiments.take (i + 1)).count v)).getD
        sentiments.length
    ks.foldl (fun best k' => if reachPos k' < reachPos best then k' else best) k

/-! ### Helper lemmas: data-source state machine -/

theorem try_fetch_disabled (s : DataSource) (hs : s.enabled = false)
    (supports : Bool) (outcome : FetchOutcome) :
    s.try_fetch supports outcome = (none, s) := by
  simp [DataSource.try_fetch, hs]

theorem try_fetch_unsupported (s : DataSource) (hsup : supports = false)
    (outcome : FetchOutcome) :
    s.try_fetch supports outcome = (none, s) := by
  cases he : s.enabled <;> simp [DataSource.try_fetch, hsup, he]

theorem apply_preserves_inv (s : DataSource) (ev : SourceEvent)
    (h : s.enabled = false → s.max_failures ≤ s.failure_count) :
    (ev.apply s).max_failures = s.max_failures ∧
    ((ev.apply s).enabled = false →
      (ev.apply s).max_failures ≤ (ev.apply s).failure_count) := by
  cases ev with
  | reset => simp [SourceEvent.apply, DataSource.reset]
  | fetch supports outcome =>
    by_cases he : s.enabled = true
    · by_cases hsup : supports = true
      · cases outcome with
        | ok p => simp [SourceEvent.apply, DataSource.try_fetch, he, hsup]
        | noData =>
          simp only [SourceEvent.apply, DataSource.try_fetch, he, hsup,
            Bool.not_true, Bool.false_eq_true, if_false, DataSource.record_failure]
          split <;> simp_all
        | err =>
          simp only [SourceEvent.apply, DataSource.try_fetch, he, hsup,
            Bool.not_true, Bool.false_eq_true, if_false, DataSource.record_failure]
          split <;> simp_all
      · simp only [Bool.not_eq_true] at hsup
        have happ : (SourceEvent.fetch supports outcome).apply s = s := by
          simp [SourceEvent.apply, try_fetch_unsupported s hsup]
        rw [happ]
        exact ⟨rfl, h⟩
    · simp only [Bool.not_eq_true] at he
      have happ : (SourceEvent.fetch supports outcome).apply s = s := by
        simp [SourceEvent.apply, try_fetch_disabled s he]
      rw [happ]
      exact ⟨rfl, h⟩

theorem runEvents_inv (evs : List SourceEvent) (s : DataSource)
    (h : s.enabled = false → s.max_failures ≤ s.failure_count) :
    (runEvents s evs).max_failures = s.max_failures ∧
    ((runEvents s evs).enabled = false →
      (runEvents s evs).max_failures ≤ (runEvents s evs).failure_count) := by
  induction evs generalizing s with
  | nil => exact ⟨rfl, h⟩
  | cons ev evs ih =>
    have h1 := apply_preserves_inv s ev h
    have h2 := ih (ev.apply s) h1.2
    exact ⟨h2.1.trans h1.1, h2.2⟩

theorem runEvents_disabled (evs : List SourceEvent) (s : DataSource)
    (hs : s.enabled = false) (hnr : ∀ ev ∈ evs, ev ≠ .reset) :
    runEvents s evs = s := by
  induction evs with
  | nil => rfl
  | cons ev evs ih =>
    cases ev with
    | reset => exact absurd rfl (hnr .reset (by simp))
    | fetch supports outcome =>
      show runEvents ((SourceEvent.fetch supports outcome).apply s) evs = s
      rw [show (SourceEvent.fetch supports outcome).apply s = s by
        simp [SourceEvent.apply, try_fetch_disabled s hs]]
      exact ih (fun e he => hnr e (by simp [he]))

/-- C1: for every data provider, `enabled` becomes false exactly when
`failure_count` reaches the failure threshold (default 3) through
consecutive recorded failures; `enabled == false` arises only with
`failure_count >= max_failures`; a disabled provider stays disabled and
untouched across all subsequent fetch trials until `reset()`, which
restores `enabled == true` and `failure_count == 0`. -/
theorem C1_circuit_breaker (name : String) (priority : Int)
    (evs : List SourceEvent) (s : DataSource) (supports : Bool)
    (outcome : FetchOutcome) :
    ((runEvents (DataSource.init name priority) evs).enabled = false →
      3 ≤ (runEvents (DataSource.init name priority) evs).failure_count) ∧
    (s.enabled = true →
      (((s.try_fetch supports outcome).2.enabled = false) ↔
        (supports = true ∧ outcome.isOk = false ∧
          s.max_failures ≤ s.failure_count + 1))) ∧
    (s.enabled = true → supports = true → outcome.isOk = false →
      (s.try_fetch supports outcome).2.failure_count = s.failure_count + 1) ∧
    (s.enabled = false → (∀ ev ∈ evs, ev ≠ .reset) → runEvents s evs = s) ∧
    (s.reset.enabled = true ∧ s.reset.failure_count = 0) := by
  refine ⟨?_, ?_, ?_, runEvents_disabled evs s, by simp [DataSource.reset]⟩
  · intro hdis
    have h := runEvents_inv evs (DataSource.init name priority) (by simp [DataSource.init])
    have h3 : (runEvents (DataSource.init name priority) evs).max_failures = 3 := h.1
    have := h.2 hdis
    omega
  · intro he
    by_cases hsup : supports = true
    · cases outcome with
      | ok p => simp [DataSource.try_fetch, he, hsup, FetchOutcome.isOk]
      | noData =>
        simp only [DataSource.try_fetch, he, hsup, Bool.not_true, Bool.false_eq_true,
          if_false, DataSource.record_failure, FetchOutcome.isOk]
        split <;> simp_all
      | err =>
        simp only [DataSource.try_fetch, he, hsup, Bool.not_true, Bool.false_eq_true,
          if_false, DataSource.record_failure, FetchOutcome.isOk]
        split <;> simp_all
    · simp only [Bool.not_eq_true] at hsup
      rw [try_fetch_unsupported s hsup]
      simp [he, hsup]
  · intro he hsup hok
    cases outcome with
    | ok p => simp [FetchOutcome.isOk] at hok
    | noData =>
      simp only [DataSource.try_fetch, he, hsup, Bool.not_true, Bool.false_eq_true,
        if_false, DataSource.record_failure]
      split <;> simp
    | err =>
      simp only [DataSource.try_fetch, he, hsup, Bool.not_true, Bool.false_eq_true,
        if_false, DataSource.record_failure]
      split <;> simp

/-- Witness for C1 at concrete inputs: three consecutive failures disable
the source with `failure_count = 3`; a disabled source is untouched by
further trials; `reset()` restores the initial health state. -/
theorem C1_circuit_breaker_witness :
    (3 ≤ (runEvents (DataSource.init "yf" 0)
      [.fetch true .err, .fetch true .err, .fetch true .err]).failure_count) ∧
    ((⟨"yf", 0, true, 2, 3⟩ : DataSource).try_fetch true .err).2.enabled = false ∧
    runEvents (⟨"yf", 0, false, 3, 3⟩ : DataSource)
      [.fetch true (.ok ⟨1, 1, 1, 1, 1, 1⟩)] = ⟨"yf", 0, false, 3, 3⟩ ∧
    (DataSource.reset ⟨"yf", 0, false, 3, 3⟩).enabled = true ∧
    (DataSource.reset ⟨"yf", 0, false, 3, 3⟩).failure_count = 0 := by
  have h1 := C1_circuit_breaker "yf" 0
    [.fetch true .err, .fetch true .err, .fetch true .err]
    (⟨"yf", 0, true, 2, 3⟩ : DataSource) true .err
  have h2 := C1_circuit_breaker "yf" 0
    [.fetch true (.ok ⟨1, 1, 1, 1, 1, 1⟩)]
    (⟨"yf", 0, false, 3, 3⟩ : DataSource) true (.ok ⟨1, 1, 1, 1, 1, 1⟩)
  refine ⟨h1.1 (by decide), ?_, h2.2.2.2.1 rfl (by decide), h2.2.2.2.2⟩
  exact (h1.2.1 rfl).mpr ⟨rfl, rfl, by decide⟩

/-! ### Helper lemmas: the fallback chain -/

theorem chainGo_cons (c : ChainSource) (rest : List ChainSource) :
    chainGo (c :: rest) =
      match c.step with
      | (some p, c') => (some p, c' :: rest)
      | (none, c') => ((chainGo rest).1, c' :: (chainGo rest).2) := rfl

theorem step_skip (c : ChainSource) (h : c.invoked = false) :
    c.step = (none, c) := by
  have hfetch : c.src.try_fetch c.supports c.outcome = (none, c.src) := by
    by_cases he : c.src.enabled = true
    · have hsup : c.supports = false := by
        simpa [ChainSource.invoked, he] using h
      exact try_fetch_unsupported c.src hsup c.outcome
    · exact try_fetch_disabled c.src (by simpa using he) c.supports c.outcome
  simp [ChainSource.step, hfetch]

theorem chainGo_skipped (l : List ChainSource) (i : Nat) (c : ChainSource)
    (hget : l[i]? = some c) (hinv : c.invoked = false) :
    (chainGo l).2[i]? = some c := by
  induction l generalizing i with
  | nil => simp at hget
  | cons d rest ih =>
    cases i with
    | zero =>
      simp only [List.getElem?_cons_zero, Option.some.injEq] at hget
      subst hget
      rw [chainGo_cons, step_skip d hinv]
      simp
    | succ n =>
      simp only [List.getElem?_cons_succ] at hget
      rcases hstep : d.step with ⟨r, d'⟩
      cases r with
      | some p =>
        rw [chainGo_cons, hstep]
        simpa using hget
      | none =>
        rw [chainGo_cons, hstep]
        simpa using ih n hget

/-- C10: a trial on a provider that is disabled or does not support the
market returns `None` and leaves its state (and, inside a fallback
resolution, every skipped provider's state) completely unchanged — a
skipped trial is never recorded as a failure. -/
theorem C10_skipped_trial_pure (s : DataSource) (supports : Bool)
    (outcome : FetchOutcome) (market : String) (u : ℚ) (volume : ℕ)
    (sources : List ChainSource) (i : Nat) (c : ChainSource) :
    (s.enabled = false ∨ supports = false →
      s.try_fetch supports outcome = (none, s)) ∧
    (sources[i]? = some c → c.invoked = false →
      (fetchWithFallback market u volume sources).2[i]? = some c) := by
  constructor
  · rintro (h | h)
    · exact try_fetch_disabled s h supports outcome
    · exact try_fetch_unsupported s h outcome
  · intro hget hinv
    have h := chainGo_skipped sources i c hget hinv
    unfold fetchWithFallback
    rcases hr : chainGo sources with ⟨r, l⟩
    rw [hr] at h
    cases r <;> simpa using h

/-- Witness for C10: a disabled source's trial is a no-op, and a disabled
source inside a chain is returned bit-identical. -/
theorem C10_skipped_trial_pure_witness :
    ((⟨"s", 0, false, 3, 3⟩ : DataSource).try_fetch true .err =
      (none, ⟨"s", 0, false, 3, 3⟩)) ∧
    (fetchWithFallback "KOSPI" 0 1000000
      [⟨⟨"a", 0, false, 2, 3⟩, true, .ok ⟨1, 1, 1, 1, 1, 1⟩⟩]).2[0]? =
      some ⟨⟨"a", 0, false, 2, 3⟩, true, .ok ⟨1, 1, 1, 1, 1, 1⟩⟩ := by
  have h := C10_skipped_trial_pure ⟨"s", 0, false, 3, 3⟩ true .err "KOSPI" 0 1000000
    [⟨⟨"a", 0, false, 2, 3⟩, true, .ok ⟨1, 1, 1, 1, 1, 1⟩⟩] 0
    ⟨⟨"a", 0, false, 2, 3⟩, true, .ok ⟨1, 1, 1, 1, 1, 1⟩⟩
  exact ⟨h.1 (Or.inl rfl), h.2 (by decide) (by decide)⟩

/-! ### Helper lemmas: fan-out orchestrator -/

theorem predictAll_eq (r : PredictorRegistry) (p : Prompts)
    (b : String → PredictOutcome) :
    predictAll r p b = (dispatched r p).map (fun n => (n, safePredict (b n))) := by
  simp only [predictAll]
  split
  · next h => rw [List.isEmpty_iff.mp h]; rfl
  · rfl

theorem if_singleton_sublist {α : Type} (c : Prop) [Decidable c] (x : α) :
    List.Sublist (if c then [x] else []) [x] := by
  split
  · exact List.Sublist.refl [x]
  · exact List.nil_sublist [x]

theorem dispatched_sublist (r : PredictorRegistry) (p : Prompts) :
    List.Sublist (dispatched r p)
      ["GPT-5.2", "Gemini 3.0", "Claude 4.5", "Gemma", "Qwen"] := by
  unfold dispatched
  exact ((((if_singleton_sublist _ _).append (if_singleton_sublist _ _)).append
    (if_singleton_sublist _ _)).append (if_singleton_sublist _ _)).append
    (if_singleton_sublist _ _)

theorem lookup_map_self {β : Type} (names : List String) (f : String → β)
    (n : String) (hn : n ∈ names) :
    (names.map (fun m => (m, f m))).lookup n = some (f n) := by
  induction names with
  | nil => cases hn
  | cons m ms ih =>
    by_cases hnm : n = m
    · subst hnm
      simp [List.lookup]
    · have : n ∈ ms := by
        cases hn with
        | head => exact absurd rfl hnm
        | tail _ h => exact h
      simpa [List.lookup, beq_false_of_ne hnm] using ih this

/-- C4: `predict_all` returns exactly one entry per dispatched predictor;
each entry's value is determined solely by that predictor's own settled
outcome (so a timeout or raised error in predictor i produces `None` for
i only and cannot affect any other entry), and when no predictor
succeeds the all-`None` map is still returned normally. -/
theorem C4_fanout_isolation (r : PredictorRegistry) (p : Prompts)
    (b : String → PredictOutcome) :
    ((predictAll r p b).map Prod.fst = dispatched r p ∧ (dispatched r p).Nodup) ∧
    (∀ n ∈ dispatched r p,
      (predictAll r p b).lookup n = some (safePredict (b n))) ∧
    (∀ n ∈ dispatched r p, (b n = .timeout ∨ b n = .err) →
      (predictAll r p b).lookup n = some none) ∧
    ((∀ n, safePredict (b n) = none) →
      predictAll r p b = (dispatched r p).map (fun n => (n, none))) := by
  refine ⟨⟨?_, ?_⟩, ?_, ?_, ?_⟩
  · rw [predictAll_eq, List.map_map]
    rw [show (Prod.fst ∘ fun n => (n, safePredict (b n))) = id from rfl, List.map_id]
  · exact (dispatched_sublist r p).nodup (by decide)
  · intro n hn
    rw [predictAll_eq]
    exact lookup_map_self (dispatched r p) (fun m => safePredict (b m)) n hn
  · intro n hn hout
    rw [predictAll_eq,
      lookup_map_self (dispatched r p) (fun m => safePredict (b m)) n hn]
    rcases hout with h | h <;> rw [h] <;> rfl
  · intro hall
    rw [predictAll_eq]
    exact List.map_congr_left (fun n _ => by rw [hall n])

/-- Witness for C4: registry fully initialised, prompts for "gpt" and
"gemma" only; the GPT call succeeds and the Gemma call times out. -/
theorem C4_fanout_isolation_witness :
    (predictAll ⟨true, true, true, true⟩ ⟨true, false, false, true, false⟩
        (fun n => if n = "GPT-5.2" then .ok ⟨"gpt-5.2", "up", true⟩ else .timeout)).map
        Prod.fst = ["GPT-5.2", "Gemma"] ∧
    (predictAll ⟨true, true, true, true⟩ ⟨true, false, false, true, false⟩
        (fun n => if n = "GPT-5.2" then .ok ⟨"gpt-5.2", "up", true⟩ else .timeout)).lookup
        "Gemma" = some none ∧
    (predictAll ⟨true, true, true, true⟩ ⟨true, false, false, true, false⟩
        (fun n => if n = "GPT-5.2" then .ok ⟨"gpt-5.2", "up", true⟩ else .timeout)).lookup
        "GPT-5.2" = some (some ⟨"gpt-5.2", "up", true⟩) := by
  have h := C4_fanout_isolation ⟨true, true, true, true⟩
    ⟨true, false, false, true, false⟩
    (fun n => if n = "GPT-5.2" then .ok ⟨"gpt-5.2", "up", true⟩ else .timeout)
  refine ⟨?_, ?_, ?_⟩
  · rw [h.1.1]; decide
  · have := h.2.2.1 "Gemma" (by decide) (Or.inl (by decide))
    simpa using this
  · have := h.2.1 "GPT-5.2" (by decide)
    simpa using this

/-! ### Helper lemmas: insertion-order deduplication -/

theorem insertionKeys_nodup {α : Type} [DecidableEq α] (l : List α) :
    (insertionKeys l).Nodup := by
  induction l with
  | nil => exact List.nodup_nil
  | cons a as ih =>
    refine List.Nodup.cons ?_ (ih.filter _)
    intro ha
    have := (List.mem_filter.mp ha).2
    simp at this

theorem insertionKeys_mem {α : Type} [DecidableEq α] (l : List α) (x : α) :
    x ∈ insertionKeys l ↔ x ∈ l := by
  induction l with
  | nil => simp [insertionKeys]
  | cons a as ih =>
    by_cases hx : x = a
    · subst hx; simp [insertionKeys]
    · simp [insertionKeys, List.mem_filter, hx, ih]

theorem insertionKeys_pairwise_indexOf {α : Type} [DecidableEq α] (l : List α) :
    (insertionKeys l).Pairwise (fun a b => l.indexOf a < l.indexOf b) := by
  induction l with
  | nil => exact List.Pairwise.nil
  | cons a as ih =>
    refine List.Pairwise.cons ?_ ?_
    · intro b hb
      have hba : b ≠ a := by
        have := (List.mem_filter.mp hb).2
        simpa using this
      rw [List.indexOf_cons_self, List.indexOf_cons_ne as hba.symm]
      exact Nat.succ_pos _
    · have hpw : (insertionKeys as).Pairwise
          (fun a b => as.indexOf a < as.indexOf b) := ih
      have hf : ((insertionKeys as).filter (fun b => decide (b ≠ a))).Pairwise
          (fun a b => as.indexOf a < as.indexOf b) :=
        hpw.sublist (List.filter_sublist _)
      refine hf.imp_of_mem ?_
      intro x y hx hy hxy
      have hxa : x ≠ a := by simpa using (List.mem_filter.mp hx).2
      have hya : y ≠ a := by simpa using (List.mem_filter.mp hy).2
      rw [List.indexOf_cons_ne as hxa.symm, List.indexOf_cons_ne as hya.symm]
      exact Nat.succ_lt_succ hxy

/-- C9: the consolidated reason deduplicates by exact text equality
keeping first occurrences in order, joins at most the first three unique
reasons with the " | " separator, and appends the " 외" truncation marker
iff more than three unique reasons existed. -/
theorem C9_combine_reasons (reasons : List String) (h : reasons ≠ []) :
    (insertionKeys reasons).Nodup ∧
    (∀ r, r ∈ insertionKeys reasons ↔ r ∈ reasons) ∧
    (insertionKeys reasons).Pairwise
      (fun a b => reasons.indexOf a < reasons.indexOf b) ∧
    combineReasons reasons =
      (if 3 < (insertionKeys reasons).length then
        String.intercalate " | " ((insertionKeys reasons).take 3) ++ " 외"
       else String.intercalate " | " (insertionKeys reasons)) := by
  refine ⟨insertionKeys_nodup reasons, fun r => insertionKeys_mem reasons r,
    insertionKeys_pairwise_indexOf reasons, ?_⟩
  unfold combineReasons
  rw [if_neg (by simpa [List.isEmpty_iff] using h)]

/-- Witness for C9: four unique reasons among five collected → first
three joined, marker appended; three unique reasons → no marker. -/
theorem C9_combine_reasons_witness :
    combineReasons ["a", "b", "a", "c", "d"] = "a | b | c 외" ∧
    insertionKeys ["a", "b", "a", "c", "d"] = ["a", "b", "c", "d"] ∧
    combineReasons ["a", "b", "a", "c"] = "a | b | c" := by
  have h1 := C9_combine_reasons ["a", "b", "a", "c", "d"] (by decide)
  have h2 := C9_combine_reasons ["a", "b", "a", "c"] (by decide)
  refine ⟨?_, by decide, ?_⟩
  · rw [h1.2.2.2]; decide
  · rw [h2.2.2.2]; decide

/-! ### Helper lemmas: total-failure behaviour of the chain -/

theorem step_fst_none (c : ChainSource) (h : c.succeeds = false) :
    c.step.1 = none := by
  by_cases hinv : c.invoked = true
  · have hok : c.outcome.isOk = false := by
      simpa [ChainSource.succeeds, hinv] using h
    have he : c.src.enabled = true := by
      have := hinv
      simp only [ChainSource.invoked, Bool.and_eq_true] at this
      exact this.1
    have hsup : c.supports = true := by
      have := hinv
      simp only [ChainSource.invoked, Bool.and_eq_true] at this
      exact this.2
    cases hout : c.outcome with
    | ok p => rw [hout] at hok; simp [FetchOutcome.isOk] at hok
    | noData => simp [ChainSource.step, DataSource.try_fetch, he, hsup, hout]
    | err => simp [ChainSource.step, DataSource.try_fetch, he, hsup, hout]
  · rw [step_skip c (by simpa using hinv)]

theorem chainGo_all_fail (l : List ChainSource)
    (h : ∀ c ∈ l, c.succeeds = false) :
    chainGo l = (none, l.map ChainSource.after) := by
  induction l with
  | nil => rfl
  | cons c rest ih =>
    have hc := step_fst_none c (h c (by simp))
    rcases hs : c.step with ⟨r, c'⟩
    rw [hs] at hc
    subst hc
    rw [chainGo_cons, hs, ih (fun d hd => h d (by simp [hd]))]
    have : ChainSource.after c = c' := by rw [ChainSource.after, hs]
    rw [List.map_cons, this]

/-- C3 counterexample: with no usable provider the resolver returns the
mock payload, and that payload carries no "synthetic" key at all — it is
not marked as synthetic, contrary to the claim. -/
theorem C3_no_synthetic_marker_counterexample :
    (fetchWithFallback "NASDAQ" 0 1000000 []).1.entries.lookup "synthetic" = none ∧
    (fetchWithFallback "NASDAQ" 0 1000000 []).1 = mockData "NASDAQ" 0 1000000 := by
  exact ⟨rfl, rfl⟩

/-- C3 (amended): `fetch_with_fallback` never raises — whenever every
provider is disabled, unsupported or failing it returns the mock payload,
whose shape (key set) is deterministic and identical to a genuine
payload's six keys; it carries no `synthetic: true` marker, so it is not
distinguishable from a genuine payload by any provenance flag. -/
theorem C3_total_failure_mock (market : String) (u : ℚ) (volume : ℕ)
    (sources : List ChainSource)
    (h : ∀ c ∈ sources, c.succeeds = false) :
    fetchWithFallback market u volume sources =
      (mockData market u volume, sources.map ChainSource.after) ∧
    (mockData market u volume).entries.map Prod.fst =
      ["current_price", "market_cap", "trading_volume", "trading_value",
       "change_rate", "previous_close"] ∧
    (mockData market u volume).entries.lookup "synthetic" = none := by
  refine ⟨?_, rfl, rfl⟩
  unfold fetchWithFallback
  rw [chainGo_all_fail sources h]

/-- Witness for C3 (amended) at a concrete chain: one enabled KOSPI
source whose fetch returns `None`. -/
theorem C3_total_failure_mock_witness :
    fetchWithFallback "KOSPI" (1 / 100) 2000000
        [⟨⟨"fdr", 0, true, 0, 3⟩, true, .noData⟩] =
      (mockData "KOSPI" (1 / 100) 2000000,
        [⟨⟨"fdr", 0, true, 1, 3⟩, true, .noData⟩]) ∧
    (mockData "KOSPI" (1 / 100) 2000000).entries.lookup "synthetic" = none := by
  have h := C3_total_failure_mock "KOSPI" (1 / 100) 2000000
    [⟨⟨"fdr", 0, true, 0, 3⟩, true, .noData⟩] (by decide)
  refine ⟨?_, h.2.2⟩
  have h2 : List.map ChainSource.after [⟨⟨"fdr", 0, true, 0, 3⟩, true, .noData⟩] =
      [(⟨⟨"fdr", 0, true, 1, 3⟩, true, .noData⟩ : ChainSource)] := by decide
  rw [h.1, h2]

/-! ### Helper lemmas: stable priority sort and trial order -/

theorem insertByPriority_mem (c x : ChainSource) (l : List ChainSource) :
    x ∈ insertByPriority c l ↔ x = c ∨ x ∈ l := by
  induction l with
  | nil => simp [insertByPriority]
  | cons d ds ih =>
    unfold insertByPriority
    split <;> (simp only [List.mem_cons, ih]; try tauto)

theorem insertByPriority_pairwise (c : ChainSource) (l : List ChainSource)
    (h : l.Pairwise (fun a b => a.src.priority ≤ b.src.priority)) :
    (insertByPriority c l).Pairwise
      (fun a b => a.src.priority ≤ b.src.priority) := by
  induction l with
  | nil => simp [insertByPriority]
  | cons d ds ih =>
    unfold insertByPriority
    split
    · next hlt =>
      rcases List.pairwise_cons.mp h with ⟨hd, hds⟩
      refine List.pairwise_cons.mpr ⟨?_, ih hds⟩
      intro x hx
      rcases (insertByPriority_mem c x ds).mp hx with rfl | hx
      · exact le_of_lt hlt
      · exact hd x hx
    · next hge =>
      rcases List.pairwise_cons.mp h with ⟨hd, _⟩
      refine List.pairwise_cons.mpr ⟨?_, h⟩
      intro x hx
      rcases List.mem_cons.mp hx with rfl | hx
      · exact le_of_not_lt hge
      · exact le_trans (le_of_not_lt hge) (hd x hx)

theorem insertByPriority_perm (c : ChainSource) (l : List ChainSource) :
    List.Perm (insertByPriority c l) (c :: l) := by
  induction l with
  | nil => exact List.Perm.refl _
  | cons d ds ih =>
    unfold insertByPriority
    split
    · exact (ih.cons d).trans (List.Perm.swap c d ds)
    · exact List.Perm.refl _

theorem sortByPriority_pairwise (l : List ChainSource) :
    (sortByPriority l).Pairwise (fun a b => a.src.priority ≤ b.src.priority) := by
  induction l with
  | nil => exact List.Pairwise.nil
  | cons c cs ih => exact insertByPriority_pairwise c _ ih

theorem sortByPriority_perm (l : List ChainSource) :
    List.Perm (sortByPriority l) l := by
  induction l with
  | nil => exact List.Perm.refl _
  | cons c cs ih => exact (insertByPriority_perm c _).trans (ih.cons c)

theorem insertByPriority_filter (c : ChainSource) (l : List ChainSource) (q : Int)
    (hsort : l.Pairwise (fun a b => a.src.priority ≤ b.src.priority)) :
    (insertByPriority c l).filter (fun d => d.src.priority == q) =
      (if c.src.priority == q then
        c :: l.filter (fun d => d.src.priority == q)
       else l.filter (fun d => d.src.priority == q)) := by
  induction l with
  | nil => simp [insertByPriority, List.filter_cons]
  | cons d ds ih =>
    rcases List.pairwise_cons.mp hsort with ⟨hd, hds⟩
    unfold insertByPriority
    split
    · next hlt =>
      by_cases hcq : c.src.priority = q
      · have hdq : (d.src.priority == q) = false := by
          have : d.src.priority ≠ q := by
            intro hdq; rw [hdq, ← hcq] at hlt; exact lt_irrefl _ hlt
          simpa using this
        simp only [List.filter_cons, hdq, ih hds]
        simp [hcq]
      · have hcq' : (c.src.priority == q) = false := by simpa using hcq
        simp [List.filter_cons, ih hds, hcq']
    · simp [List.filter_cons]

theorem sortByPriority_filter (l : List ChainSource) (q : Int) :
    (sortByPriority l).filter (fun d => d.src.priority == q) =
      l.filter (fun d => d.src.priority == q) := by
  induction l with
  | nil => rfl
  | cons c cs ih =>
    show (insertByPriority c (sortByPriority cs)).filter _ = _
    rw [insertByPriority_filter c _ q (sortByPriority_pairwise cs), List.filter_cons]
    split <;> simp_all

theorem attemptsOf_sublist (l : List ChainSource) :
    List.Sublist (attemptsOf l) l := by
  induction l with
  | nil => exact List.Sublist.refl []
  | cons c rest ih =>
    unfold attemptsOf
    split
    · split
      · exact (List.nil_sublist rest).cons₂ c
      · exact ih.cons₂ c
    · exact ih.cons c

theorem attemptsOf_invoked (l : List ChainSource) :
    ∀ c ∈ attemptsOf l, c.invoked = true := by
  induction l with
  | nil => intro c hc; cases hc
  | cons d rest ih =>
    intro c hc
    unfold attemptsOf at hc
    by_cases hd : d.invoked = true
    · rw [if_pos hd] at hc
      by_cases hok : d.outcome.isOk = true
      · rw [if_pos hok] at hc
        rcases List.mem_singleton.mp hc with rfl
        exact hd
      · rw [if_neg hok] at hc
        rcases List.mem_cons.mp hc with rfl | hc
        · exact hd
        · exact ih c hc
    · rw [if_neg hd] at hc
      exact ih c hc

theorem chainGo_first_success (l₁ : List ChainSource) (c : ChainSource)
    (l₂ : List ChainSource) (p : Payload)
    (hfail : ∀ d ∈ l₁, d.succeeds = false)
    (he : c.src.enabled = true) (hsup : c.supports = true)
    (hout : c.outcome = .ok p) :
    chainGo (l₁ ++ c :: l₂) =
      (some p, l₁.map ChainSource.after ++
        ({ c with src := { c.src with failure_count := 0 } } : ChainSource) :: l₂) := by
  induction l₁ with
  | nil =>
    simp only [List.nil_append, List.map_nil]
    rw [chainGo_cons]
    have hstep : c.step =
        (some p, { c with src := { c.src with failure_count := 0 } }) := by
      simp [ChainSource.step, DataSource.try_fetch, he, hsup, hout]
    rw [hstep]
  | cons d ds ih =>
    have hd := step_fst_none d (hfail d (by simp))
    rcases hs : d.step with ⟨r, d'⟩
    rw [hs] at hd
    subst hd
    rw [List.cons_append, chainGo_cons, hs,
      ih (fun x hx => hfail x (by simp [hx]))]
    have : ChainSource.after d = d' := by rw [ChainSource.after, hs]
    rw [List.map_cons, this]
    simp

/-- C2: sources are tried one at a time in ascending priority order with
ties broken by registration order (the registered list is stably sorted
by priority, and the attempted sources form an in-order sublist of it
consisting exactly of enabled, market-supporting sources); the first
source whose fetch returns a payload has its `failure_count` reset to 0
and its payload returned, with every later source left untouched and
unattempted. -/
theorem C2_priority_fallback (reg : List ChainSource) (market : String)
    (u : ℚ) (volume : ℕ) (l₁ l₂ : List ChainSource) (c : ChainSource)
    (p : Payload) :
    ((sortByPriority reg).Pairwise
        (fun a b => a.src.priority ≤ b.src.priority) ∧
      List.Perm (sortByPriority reg) reg ∧
      ∀ q : Int, (sortByPriority reg).filter (fun d => d.src.priority == q) =
        reg.filter (fun d => d.src.priority == q)) ∧
    (List.Sublist (attemptsOf (sortByPriority reg)) (sortByPriority reg) ∧
      (attemptsOf (sortByPriority reg)).Pairwise
        (fun a b => a.src.priority ≤ b.src.priority) ∧
      ∀ d ∈ attemptsOf (sortByPriority reg), d.invoked = true) ∧
    (sortByPriority reg = l₁ ++ c :: l₂ →
      (∀ d ∈ l₁, d.succeeds = false) →
      c.src.enabled = true → c.supports = true → c.outcome = .ok p →
      fetchWithFallback market u volume (sortByPriority reg) =
        (p, l₁.map ChainSource.after ++
          ({ c with src := { c.src with failure_count := 0 } } : ChainSource)
            :: l₂)) := by
  refine ⟨⟨sortByPriority_pairwise reg, sortByPriority_perm reg,
    fun q => sortByPriority_filter reg q⟩,
    ⟨attemptsOf_sublist _,
      (sortByPriority_pairwise reg).sublist (attemptsOf_sublist _),
      attemptsOf_invoked _⟩, ?_⟩
  intro hdec hfail he hsup hout
  rw [hdec]
  unfold fetchWithFallback
  rw [chainGo_first_success l₁ c l₂ p hfail he hsup hout]

/-- Witness for C2: three registered sources with priorities 2, 1, 1; the
stable sort puts the two priority-1 sources first in registration order;
the first fails (`None`), the second succeeds and short-circuits. -/
theorem C2_priority_fallback_witness :
    sortByPriority
        [⟨⟨"av", 2, true, 0, 3⟩, true, .ok ⟨9, 9, 9, 9, 9, 9⟩⟩,
         ⟨⟨"yf", 1, true, 0, 3⟩, true, .noData⟩,
         ⟨⟨"fdr", 1, true, 2, 3⟩, true, .ok ⟨2, 2, 2, 2, 2, 2⟩⟩] =
      [⟨⟨"yf", 1, true, 0, 3⟩, true, .noData⟩,
       ⟨⟨"fdr", 1, true, 2, 3⟩, true, .ok ⟨2, 2, 2, 2, 2, 2⟩⟩,
       ⟨⟨"av", 2, true, 0, 3⟩, true, .ok ⟨9, 9, 9, 9, 9, 9⟩⟩] ∧
    fetchWithFallback "NASDAQ" 0 1000000
        (sortByPriority
          [⟨⟨"av", 2, true, 0, 3⟩, true, .ok ⟨9, 9, 9, 9, 9, 9⟩⟩,
           ⟨⟨"yf", 1, true, 0, 3⟩, true, .noData⟩,
           ⟨⟨"fdr", 1, true, 2, 3⟩, true, .ok ⟨2, 2, 2, 2, 2, 2⟩⟩]) =
      (⟨2, 2, 2, 2, 2, 2⟩,
       [⟨⟨"yf", 1, true, 1, 3⟩, true, .noData⟩,
        ⟨⟨"fdr", 1, true, 0, 3⟩, true, .ok ⟨2, 2, 2, 2, 2, 2⟩⟩,
        ⟨⟨"av", 2, true, 0, 3⟩, true, .ok ⟨9, 9, 9, 9, 9, 9⟩⟩]) ∧
    attemptsOf
        (sortByPriority
          [⟨⟨"av", 2, true, 0, 3⟩, true, .ok ⟨9, 9, 9, 9, 9, 9⟩⟩,
           ⟨⟨"yf", 1, true, 0, 3⟩, true, .noData⟩,
           ⟨⟨"fdr", 1, true, 2, 3⟩, true, .ok ⟨2, 2, 2, 2, 2, 2⟩⟩]) =
      [⟨⟨"yf", 1, true, 0, 3⟩, true, .noData⟩,
       ⟨⟨"fdr", 1, true, 2, 3⟩, true, .ok ⟨2, 2, 2, 2, 2, 2⟩⟩] := by
  have h := C2_priority_fallback
    [⟨⟨"av", 2, true, 0, 3⟩, true, .ok ⟨9, 9, 9, 9, 9, 9⟩⟩,
     ⟨⟨"yf", 1, true, 0, 3⟩, true, .noData⟩,
     ⟨⟨"fdr", 1, true, 2, 3⟩, true, .ok ⟨2, 2, 2, 2, 2, 2⟩⟩]
    "NASDAQ" 0 1000000
    [⟨⟨"yf", 1, true, 0, 3⟩, true, .noData⟩]
    [⟨⟨"av", 2, true, 0, 3⟩, true, .ok ⟨9, 9, 9, 9, 9, 9⟩⟩]
    ⟨⟨"fdr", 1, true, 2, 3⟩, true, .ok ⟨2, 2, 2, 2, 2, 2⟩⟩
    ⟨2, 2, 2, 2, 2, 2⟩
  refine ⟨by decide, ?_, by decide⟩
  have h3 := h.2.2 (by decide) (by decide) rfl rfl rfl
  rw [h3]
  decide

/-! ### Helper lemmas: majority vote -/

theorem foldl_best {α : Type} (cnt : α → ℕ) (ks : List α) (k : α) :
    ((ks.foldl (fun best x => if cnt best < cnt x then x else best) k) = k ∨
      (ks.foldl (fun best x => if cnt best < cnt x then x else best) k) ∈ ks) ∧
    cnt k ≤ cnt (ks.foldl (fun best x => if cnt best < cnt x then x else best) k) ∧
    (∀ y ∈ ks,
      cnt y ≤ cnt (ks.foldl (fun best x => if cnt best < cnt x then x else best) k)) ∧
    ((ks.foldl (fun best x => if cnt best < cnt x then x else best) k) = k ∨
      (cnt k < cnt (ks.foldl (fun best x => if cnt best < cnt x then x else best) k) ∧
       ∃ pre suf, ks = pre ++
          (ks.foldl (fun best x => if cnt best < cnt x then x else best) k) :: suf ∧
        ∀ y ∈ pre,
          cnt y < cnt (ks.foldl (fun best x => if cnt best < cnt x then x else best) k))) := by
  induction ks generalizing k with
  | nil => exact ⟨Or.inl rfl, le_refl _, fun y hy => absurd hy (List.not_mem_nil y),
      Or.inl rfl⟩
  | cons x ks ih =>
    by_cases hx : cnt k < cnt x
    · have hstep : (x :: ks).foldl (fun best x => if cnt best < cnt x then x else best) k =
          ks.foldl (fun best x => if cnt best < cnt x then x else best) x := by
        simp [List.foldl_cons, hx]
      rw [hstep]
      rcases ih x with ⟨h1, h2, h3, h4⟩
      refine ⟨?_, ?_, ?_, ?_⟩
      · rcases h1 with h1 | h1
        · exact Or.inr (by simp [h1])
        · exact Or.inr (by simp [h1])
      · exact le_trans (le_of_lt hx) h2
      · intro y hy
        rcases List.mem_cons.mp hy with rfl | hy
        · exact h2
        · exact h3 y hy
      · rcases h4 with h4 | ⟨hlt, pre, suf, hks, hpre⟩
        · refine Or.inr ⟨by rw [h4]; exact hx, [], ks, by rw [h4]; simp, ?_⟩
          intro y hy
          cases hy
        · refine Or.inr ⟨lt_trans hx hlt, x :: pre, suf, ?_, ?_⟩
          · conv_lhs => rw [hks]
            simp
          · intro y hy
            rcases List.mem_cons.mp hy with rfl | hy
            · exact hlt
            · exact hpre y hy
    · have hstep : (x :: ks).foldl (fun best x => if cnt best < cnt x then x else best) k =
          ks.foldl (fun best x => if cnt best < cnt x then x else best) k := by
        simp [List.foldl_cons, hx]
      rw [hstep]
      rcases ih k with ⟨h1, h2, h3, h4⟩
      refine ⟨?_, h2, ?_, ?_⟩
      · rcases h1 with h1 | h1
        · exact Or.inl h1
        · exact Or.inr (by simp [h1])
      · intro y hy
        rcases List.mem_cons.mp hy with rfl | hy
        · exact le_trans (le_of_not_lt hx) h2
        · exact h3 y hy
      · rcases h4 with h4 | ⟨hlt, pre, suf, hks, hpre⟩
        · exact Or.inl h4
        · refine Or.inr ⟨hlt, x :: pre, suf, ?_, ?_⟩
          · conv_lhs => rw [hks]
            simp
          · intro y hy
            rcases List.mem_cons.mp hy with rfl | hy
            · exact lt_of_le_of_lt (le_of_not_lt hx) hlt
            · exact hpre y hy

/-- C8 counterexample: with sentiments [negative, positive, positive,
negative] (counts 2-2), the code returns `negative` (the earliest
*first-occurring* max-count value in the `Counter`'s insertion order),
while the claim's tie-break rule — the value that first *reaches* the
maximum count in provider-iteration order — picks `positive`, which
reaches count 2 at the third element, before `negative` does at the
fourth. -/
theorem C8_tie_break_counterexample :
    voteSentiment [.negative, .positive, .positive, .negative] = .negative ∧
    specFirstToReachMax [.negative, .positive, .positive, .negative] = .positive ∧
    SentimentType.negative ≠ SentimentType.positive := by decide

/-- C8 (amended): for every non-empty list of collected sentiments the
consensus is a value of maximum vote count, and on a tie it is the
max-count value whose *first occurrence* is earliest in
provider-iteration order (equivalently, the first-encountered value; in
particular [positive, positive, negative] yields positive and a 1-1 tie
resolves to the first-encountered value). -/
theorem C8_vote_majority (l : List SentimentType) (h : l ≠ []) :
    voteSentiment l ∈ l ∧
    (∀ v ∈ l, l.count v ≤ l.count (voteSentiment l)) ∧
    (∀ v ∈ l, l.count v = l.count (voteSentiment l) →
      l.indexOf (voteSentiment l) ≤ l.indexOf v) := by
  rcases hk : insertionKeys l with _ | ⟨k, ks⟩
  · exfalso
    rcases hl : l with _ | ⟨a, as⟩
    · exact h hl
    · have ha : a ∈ insertionKeys l := (insertionKeys_mem l a).mpr (by rw [hl]; simp)
      rw [hk] at ha
      cases ha
  · have hvote : voteSentiment l =
        ks.foldl (fun best k' => if l.count best < l.count k' then k' else best) k := by
      unfold voteSentiment
      rw [hk]
    rcases foldl_best l.count ks k with ⟨h1, h2, h3, h4⟩
    have hrkeys : voteSentiment l ∈ insertionKeys l := by
      rw [hvote, hk]
      rcases h1 with h1 | h1
      · rw [h1]; exact List.mem_cons_self k ks
      · exact List.mem_cons_of_mem k h1
    refine ⟨(insertionKeys_mem l _).mp hrkeys, ?_, ?_⟩
    · intro v hv
      have hvk : v ∈ insertionKeys l := (insertionKeys_mem l v).mpr hv
      rw [hk] at hvk
      rw [hvote]
      rcases List.mem_cons.mp hvk with rfl | hvk
      · exact h2
      · exact h3 v hvk
    · intro v hv hcnt
      have hpw := insertionKeys_pairwise_indexOf l
      rw [hk] at hpw
      have hvk : v ∈ insertionKeys l := (insertionKeys_mem l v).mpr hv
      rw [hk] at hvk
      rw [hvote] at hcnt ⊢
      rcases h4 with h4 | ⟨hlt, pre, suf, hks, hpre⟩
      · rw [h4]
        rcases List.mem_cons.mp hvk with rfl | hvk
        · exact le_refl _
        · exact le_of_lt ((List.pairwise_cons.mp hpw).1 v hvk)
      · rcases List.mem_cons.mp hvk with rfl | hvk
        · exact absurd hcnt (ne_of_lt hlt)
        · rw [hks] at hvk
          rcases List.mem_append.mp hvk with hvp | hvs
          · exact absurd hcnt (ne_of_lt (hpre v hvp))
          · rcases List.mem_cons.mp hvs with rfl | hvs
            · exact le_refl _
            · have hpw2 : (k :: (pre ++
                  (ks.foldl (fun best k' =>
                    if l.count best < l.count k' then k' else best) k) :: suf)).Pairwise
                  (fun a b => l.indexOf a < l.indexOf b) := by
                rw [← hks]; exact hpw
              have h5 := (List.pairwise_cons.mp hpw2).2
              have h6 := (List.pairwise_append.mp h5).2.1
              exact le_of_lt ((List.pairwise_cons.mp h6).1 v hvs)

/-- Witness for C8 (amended): [positive, positive, negative] yields
positive (a member of maximal count), and a 1-1 tie resolves to the
first-encountered value. -/
theorem C8_vote_majority_witness :
    voteSentiment [.positive, .positive, .negative] ∈
      ([.positive, .positive, .negative] : List SentimentType) ∧
    voteSentiment [.positive, .positive, .negative] = .positive ∧
    voteSentiment [.positive, .negative] = .positive := by
  have h := C8_vote_majority [.positive, .positive, .negative] (by decide)
  exact ⟨h.1, by decide, by decide⟩

/-! ### Helper lemmas: ensemble engine control flow -/

theorem calcPeriodEnsemble_none (t : ℚ) (valid : List (String × ModelPrediction))
    (period : String) :
    calcPeriodEnsemble t valid period = none ↔
      periodPredictionsFor valid period = [] := by
  simp only [calcPeriodEnsemble]
  split
  · next h => simpa [List.isEmpty_iff] using h
  · next h =>
    simp only [List.isEmpty_iff] at h
    simp [h]

theorem ensembleByPeriod_nil (t : ℚ) (valid : List (String × ModelPrediction)) :
    ensembleByPeriod t valid = [] ↔
      ∀ period ∈ (["1d", "1w", "1m"] : List String),
        periodPredictionsFor valid period = [] := by
  unfold ensembleByPeriod
  rw [List.filterMap_eq_nil_iff]
  constructor
  · intro h period hp
    have := h period hp
    rw [Option.map_eq_none'] at this
    exact (calcPeriodEnsemble_none t valid period).mp this
  · intro h period hp
    rw [Option.map_eq_none']
    exact (calcPeriodEnsemble_none t valid period).mpr (h period hp)

theorem ensembleByPeriod_keys (t : ℚ) (valid : List (String × ModelPrediction)) :
    (ensembleByPeriod t valid).map Prod.fst =
      (["1d", "1w", "1m"] : List String).filter
        (fun period => !(periodPredictionsFor valid period).isEmpty) := by
  unfold ensembleByPeriod
  have hkey : ∀ (l : List String),
      (l.filterMap (fun period =>
        (calcPeriodEnsemble t valid period).map (fun e => (period, e)))).map Prod.fst =
        l.filter (fun period => !(periodPredictionsFor valid period).isEmpty) := by
    intro l
    induction l with
    | nil => rfl
    | cons p l ih =>
      rw [List.filterMap_cons, List.filter_cons]
      cases hc : calcPeriodEnsemble t valid p with
      | none =>
        have hp : (periodPredictionsFor valid p).isEmpty = true := by
          simpa [List.isEmpty_iff] using (calcPeriodEnsemble_none t valid p).mp hc
        simp [hp, ih]
      | some e =>
        have hp : periodPredictionsFor valid p ≠ [] := by
          intro hnil
          rw [(calcPeriodEnsemble_none t valid p).mpr hnil] at hc
          cases hc
        have hp2 : (periodPredictionsFor valid p).isEmpty = false := by
          simpa [List.isEmpty_iff] using hp
        simp [hp2, ih]
  exact hkey _

theorem calculateEnsemble_noEnsemble (t : ℚ) (ps : List (String × ModelPrediction))
    (h1 : ps ≠ []) (h2 : validPredictions ps ≠ [])
    (h3 : ensembleByPeriod t (validPredictions ps) = []) :
    calculateEnsemble t ps = .error .noValidEnsemble := by
  simp only [calculateEnsemble]
  rw [if_neg (by simpa [List.isEmpty_iff] using h1),
    if_neg (by simpa [List.isEmpty_iff] using h2),
    if_pos (by simpa [List.isEmpty_iff] using h3)]

theorem calculateEnsemble_ok (t : ℚ) (ps : List (String × ModelPrediction))
    (h1 : ps ≠ []) (h2 : validPredictions ps ≠ [])
    (h3 : ensembleByPeriod t (validPredictions ps) ≠ []) :
    calculateEnsemble t ps = .ok (ensembleByPeriod t (validPredictions ps)) := by
  simp only [calculateEnsemble]
  rw [if_neg (by simpa [List.isEmpty_iff] using h1),
    if_neg (by simpa [List.isEmpty_iff] using h2),
    if_neg (by simpa [List.isEmpty_iff] using h3)]

/-- C5 counterexample: an empty input map raises a different `ValueError`
("예측 데이터가 비어있습니다") than the NoValidPredictions failure raised
when all entries are invalid ("유효한 예측이 없습니다"), so the claim's
"NoValidPredictions exactly when the input map is empty or every entry is
invalid" does not hold of a single typed failure. -/
theorem C5_error_taxonomy_counterexample :
    calculateEnsemble (1 / 5) [] = .error .emptyInput ∧
    calculateEnsemble (1 / 5) [("GPT-5.2", ⟨"GPT-5.2", [], false⟩)] =
      .error .noValidPredictions ∧
    EnsembleError.emptyInput ≠ EnsembleError.noValidPredictions := by
  exact ⟨rfl, rfl, by decide⟩

/-- C5 (amended): `calculate_ensemble` raises the empty-input
`ValueError` exactly on an empty map; on a non-empty map it raises
NoValidPredictions iff every entry has `success == false` or empty
opinions; when valid predictions exist it raises the distinct
NoValidEnsemble iff no horizon collects any opinion, and otherwise
returns normally, with exactly the horizons that collected at least one
opinion present in the output (the rest omitted without error). -/
theorem C5_aggregate_errors (t : ℚ) (ps : List (String × ModelPrediction)) :
    (ps = [] → calculateEnsemble t ps = .error .emptyInput) ∧
    (validPredictions ps = [] ↔
      ∀ nm ∈ ps, nm.2.success = false ∨ nm.2.predictions = []) ∧
    (ps ≠ [] →
      (calculateEnsemble t ps = .error .noValidPredictions ↔
        validPredictions ps = [])) ∧
    (ps ≠ [] → validPredictions ps ≠ [] →
      (calculateEnsemble t ps = .error .noValidEnsemble ↔
        ∀ period ∈ (["1d", "1w", "1m"] : List String),
          periodPredictionsFor (validPredictions ps) period = [])) ∧
    (ps ≠ [] → validPredictions ps ≠ [] →
      ensembleByPeriod t (validPredictions ps) ≠ [] →
      calculateEnsemble t ps = .ok (ensembleByPeriod t (validPredictions ps))) ∧
    ((ensembleByPeriod t (validPredictions ps)).map Prod.fst =
      (["1d", "1w", "1m"] : List String).filter
        (fun period => !(periodPredictionsFor (validPredictions ps) period).isEmpty)) := by
  refine ⟨?_, ?_, ?_, ?_, calculateEnsemble_ok t ps, ensembleByPeriod_keys t _⟩
  · intro h
    subst h
    rfl
  · rw [validPredictions, List.filter_eq_nil_iff]
    constructor
    · intro h nm hm
      have hnm := h nm hm
      by_cases hs : nm.2.success = true
      · right
        by_cases hp : nm.2.predictions = []
        · exact hp
        · exact absurd (by simp [hs, List.isEmpty_iff, hp]) hnm
      · left
        simpa using hs
    · intro h nm hm hcontra
      rcases h nm hm with hs | hp
      · simp [hs] at hcontra
      · simp [hp] at hcontra
  · intro hne
    constructor
    · intro heq
      by_contra hv
      by_cases he : ensembleByPeriod t (validPredictions ps) = []
      · rw [calculateEnsemble_noEnsemble t ps hne hv he] at heq
        simp at heq
      · rw [calculateEnsemble_ok t ps hne hv he] at heq
        exact Except.noConfusion heq
    · intro hv
      simp only [calculateEnsemble]
      rw [if_neg (by simpa [List.isEmpty_iff] using hne),
        if_pos (by simpa [List.isEmpty_iff] using hv)]
  · intro hne hv
    constructor
    · intro heq
      by_cases he : ensembleByPeriod t (validPredictions ps) = []
      · exact (ensembleByPeriod_nil t _).mp he
      · rw [calculateEnsemble_ok t ps hne hv he] at heq
        exact Except.noConfusion heq
    · intro hall
      exact calculateEnsemble_noEnsemble t ps hne hv
        ((ensembleByPeriod_nil t _).mpr hall)

/-- Witness for C5 (amended): one valid prediction whose only opinion is
for the unknown period "2d" yields NoValidEnsemble; one valid "1d"
opinion yields a normal result containing exactly the "1d" horizon. -/
theorem C5_aggregate_errors_witness :
    calculateEnsemble (1 / 5)
        [("A", ⟨"A", [("2d", ⟨100, "r", .positive⟩)], true⟩)] =
      .error .noValidEnsemble ∧
    (∃ v, calculateEnsemble (1 / 5)
        [("A", ⟨"A", [("1d", ⟨100, "r", .positive⟩)], true⟩)] = .ok v ∧
      v.map Prod.fst = ["1d"]) := by
  have hA := C5_aggregate_errors (1 / 5)
    [("A", ⟨"A", [("2d", ⟨100, "r", .positive⟩)], true⟩)]
  have hB := C5_aggregate_errors (1 / 5)
    [("A", ⟨"A", [("1d", ⟨100, "r", .positive⟩)], true⟩)]
  constructor
  · exact (hA.2.2.2.1 (by decide) (by decide)).mpr (by decide)
  · have hkeys := hB.2.2.2.2.2
    rw [show ((["1d", "1w", "1m"] : List String).filter
        (fun period => !(periodPredictionsFor (validPredictions
          [("A", ⟨"A", [("1d", ⟨100, "r", .positive⟩)], true⟩)]) period).isEmpty)) =
        ["1d"] from by decide] at hkeys
    have hne2 : ensembleByPeriod (1 / 5) (validPredictions
        [("A", ⟨"A", [("1d", ⟨100, "r", .positive⟩)], true⟩)]) ≠ [] := by
      intro h0
      rw [h0] at hkeys
      simp at hkeys
    exact ⟨_, hB.2.2.2.2.1 (by decide) (by decide) hne2, hkeys⟩

/-! ### Helper lemmas: rounding transfer from ℚ to ℝ -/

theorem rndHER_ratCast (q : ℚ) : rndHER ((q : ℚ) : ℝ) = rndHE q := by
  have hf : ⌊((q : ℚ) : ℝ)⌋ = ⌊q⌋ := Rat.floor_cast q
  have hr : round ((q : ℚ) : ℝ) = round q := Rat.round_cast q
  have hc : (((q : ℚ) : ℝ) - (⌊((q : ℚ) : ℝ)⌋ : ℝ) = 1 / 2) ↔
      (q - (⌊q⌋ : ℚ) = 1 / 2) := by
    rw [hf]
    constructor
    · intro h
      apply Rat.cast_injective (α := ℝ)
      push_cast
      linarith
    · intro h
      have h2 : ((q - (⌊q⌋ : ℚ) : ℚ) : ℝ) = (((1 : ℚ) / 2 : ℚ) : ℝ) := by
        exact_mod_cast congrArg (Rat.cast (K := ℝ)) h
      push_cast at h2
      linarith
  unfold rndHER rndHE
  by_cases h : q - (⌊q⌋ : ℚ) = 1 / 2
  · rw [if_pos (hc.mpr h), if_pos h, hf]
  · rw [if_neg (fun hh => h (hc.mp hh)), if_neg h, hr]

theorem round2R_ratCast (q : ℚ) : round2R ((q : ℚ) : ℝ) = ((round2Q q : ℚ) : ℝ) := by
  unfold round2R round2Q
  rw [show ((q : ℚ) : ℝ) * 100 = (((q * 100 : ℚ) : ℚ) : ℝ) by push_cast; ring,
    rndHER_ratCast]
  push_cast
  ring

theorem round2Q_intCast (n : ℤ) : round2Q ((n : ℤ) : ℚ) = ((n : ℤ) : ℚ) := by
  rw [round2Q, rndHE]
  have h1 : (((n : ℤ) : ℚ) * 100 : ℚ) = ((n * 100 : ℤ) : ℚ) := by push_cast; ring
  rw [h1, Int.floor_intCast]
  rw [if_neg (by norm_num), round_intCast]
  push_cast
  ring

/-- C6: for every horizon with at least one collected opinion, the
ensemble price is the arithmetic mean of the collected prices rounded to
2 decimals, and the stored standard deviation is the sample standard
deviation with (n-1) denominator rounded to 2 decimals when more than one
price was collected, and 0 otherwise. -/
theorem C6_mean_and_stdev (t : ℚ) (valid : List (String × ModelPrediction))
    (period : String) (e : EnsemblePrediction)
    (h : calcPeriodEnsemble t valid period = some e) :
    e.price = round2Q
      (meanPrice ((periodPredictionsFor valid period).map (fun pp => pp.price))) ∧
    e.std_dev = round2R
      (stdDevOf ((periodPredictionsFor valid period).map (fun pp => pp.price))) ∧
    (∀ prices : List ℚ,
      meanPrice prices = prices.sum / (prices.length : ℚ) ∧
      sampleVar prices =
        (prices.map (fun x => (x - meanPrice prices) ^ 2)).sum /
          ((prices.length : ℚ) - 1) ∧
      stdDevOf prices =
        (if 1 < prices.length then Real.sqrt ((sampleVar prices : ℚ) : ℝ)
         else 0)) := by
  simp only [calcPeriodEnsemble] at h
  split at h
  · exact absurd h (by simp)
  · rw [Option.some.injEq] at h
    subst h
    exact ⟨rfl, rfl, fun prices => ⟨rfl, rfl, rfl⟩⟩

/-- Witness for C6: three providers with 1d prices [100, 110, 90] yield
ensemble price 100 and standard deviation 10. -/
theorem C6_mean_and_stdev_witness :
    ∃ e, calcPeriodEnsemble (1 / 5)
        [("A", ⟨"A", [("1d", ⟨100, "r1", .positive⟩)], true⟩),
         ("B", ⟨"B", [("1d", ⟨110, "r2", .positive⟩)], true⟩),
         ("C", ⟨"C", [("1d", ⟨90, "r3", .negative⟩)], true⟩)] "1d" = some e ∧
      e.price = 100 ∧ e.std_dev = 10 := by
  obtain ⟨e, he⟩ : ∃ e, calcPeriodEnsemble (1 / 5)
      [("A", ⟨"A", [("1d", ⟨100, "r1", .positive⟩)], true⟩),
       ("B", ⟨"B", [("1d", ⟨110, "r2", .positive⟩)], true⟩),
       ("C", ⟨"C", [("1d", ⟨90, "r3", .negative⟩)], true⟩)] "1d" = some e := ⟨_, rfl⟩
  have hc := C6_mean_and_stdev (1 / 5)
    [("A", ⟨"A", [("1d", ⟨100, "r1", .positive⟩)], true⟩),
     ("B", ⟨"B", [("1d", ⟨110, "r2", .positive⟩)], true⟩),
     ("C", ⟨"C", [("1d", ⟨90, "r3", .negative⟩)], true⟩)] "1d" e he
  have hpl : (periodPredictionsFor
      [("A", ⟨"A", [("1d", ⟨100, "r1", .positive⟩)], true⟩),
       ("B", ⟨"B", [("1d", ⟨110, "r2", .positive⟩)], true⟩),
       ("C", ⟨"C", [("1d", ⟨90, "r3", .negative⟩)], true⟩)] "1d").map
      (fun pp => pp.price) = [100, 110, 90] := by decide
  rw [hpl] at hc
  have h100 : round2Q 100 = 100 := by exact_mod_cast round2Q_intCast 100
  have h10 : round2Q 10 = 10 := by exact_mod_cast round2Q_intCast 10
  have hmean : meanPrice ([100, 110, 90] : List ℚ) = 100 := by
    norm_num [meanPrice]
  have hvar : sampleVar ([100, 110, 90] : List ℚ) = 100 := by
    norm_num [sampleVar, meanPrice]
  have hstd : stdDevOf ([100, 110, 90] : List ℚ) = 10 := by
    rw [stdDevOf, if_pos (by norm_num : 1 < ([100, 110, 90] : List ℚ).length), hvar]
    rw [show ((100 : ℚ) : ℝ) = (10 : ℝ) ^ 2 by norm_num]
    exact Real.sqrt_sq (by norm_num : (0 : ℝ) ≤ 10)
  refine ⟨e, he, ?_, ?_⟩
  · rw [hc.1, hmean, h100]
  · rw [hc.2.1, hstd]
    rw [show (10 : ℝ) = ((10 : ℚ) : ℝ) by norm_num, round2R_ratCast, h10]

/-- C7: the disagreement flag of a period ensemble is true iff the
(unrounded) sample standard deviation divided by the (unrounded) mean
price exceeds the configured threshold, and it is false whenever the
mean price is ≤ 0 — the division is never evaluated with a non-positive
mean. -/
theorem C7_disagreement (t : ℚ) (valid : List (String × ModelPrediction))
    (period : String) (e : EnsemblePrediction)
    (h : calcPeriodEnsemble t valid period = some e) :
    (meanPrice ((periodPredictionsFor valid period).map (fun pp => pp.price)) ≤ 0 →
      ¬ e.disagreement) ∧
    (0 < meanPrice ((periodPredictionsFor valid period).map (fun pp => pp.price)) →
      (e.disagreement ↔
        (t : ℝ) <
          stdDevOf ((periodPredictionsFor valid period).map (fun pp => pp.price)) /
            ((meanPrice ((periodPredictionsFor valid period).map (fun pp => pp.price)) : ℚ) : ℝ))) := by
  simp only [calcPeriodEnsemble] at h
  split at h
  · exact absurd h (by simp)
  · rw [Option.some.injEq] at h
    subst h
    refine ⟨fun hle => ?_, fun hpos => ?_⟩
    · dsimp only
      rw [if_neg (not_lt.mpr hle)]
      exact not_false
    · dsimp only
      rw [if_pos hpos]

theorem meanPrice_ex3 : meanPrice ([100, 110, 90] : List ℚ) = 100 := by
  norm_num [meanPrice]

theorem stdDevOf_ex3 : stdDevOf ([100, 110, 90] : List ℚ) = 10 := by
  have hvar : sampleVar ([100, 110, 90] : List ℚ) = 100 := by
    norm_num [sampleVar, meanPrice]
  rw [stdDevOf, if_pos (by norm_num : 1 < ([100, 110, 90] : List ℚ).length), hvar]
  rw [show ((100 : ℚ) : ℝ) = (10 : ℝ) ^ 2 by norm_num]
  exact Real.sqrt_sq (by norm_num : (0 : ℝ) ≤ 10)

theorem meanPrice_ex2 : meanPrice ([100, 150] : List ℚ) = 125 := by
  norm_num [meanPrice]

theorem stdDevOf_ex2 :
    stdDevOf ([100, 150] : List ℚ) = Real.sqrt ((1250 : ℚ) : ℝ) := by
  have hvar : sampleVar ([100, 150] : List ℚ) = 1250 := by
    norm_num [sampleVar, meanPrice]
  rw [stdDevOf, if_pos (by norm_num : 1 < ([100, 150] : List ℚ).length), hvar]

/-- Witness for C7: 1d prices [100, 110, 90] (ratio 0.1, below the 0.2
default) yield no disagreement; prices [100, 150] (ratio √1250/125 ≈
0.283) yield disagreement. -/
theorem C7_disagreement_witness :
    (∃ e, calcPeriodEnsemble (1 / 5)
        [("A", ⟨"A", [("1d", ⟨100, "r1", .positive⟩)], true⟩),
         ("B", ⟨"B", [("1d", ⟨110, "r2", .positive⟩)], true⟩),
         ("C", ⟨"C", [("1d", ⟨90, "r3", .negative⟩)], true⟩)] "1d" = some e ∧
      ¬ e.disagreement) ∧
    (∃ e, calcPeriodEnsemble (1 / 5)
        [("A", ⟨"A", [("1d", ⟨100, "r1", .positive⟩)], true⟩),
         ("B", ⟨"B", [("1d", ⟨150, "r2", .positive⟩)], true⟩)] "1d" = some e ∧
      e.disagreement) := by
  constructor
  · obtain ⟨e, he⟩ : ∃ e, calcPeriodEnsemble (1 / 5)
        [("A", ⟨"A", [("1d", ⟨100, "r1", .positive⟩)], true⟩),
         ("B", ⟨"B", [("1d", ⟨110, "r2", .positive⟩)], true⟩),
         ("C", ⟨"C", [("1d", ⟨90, "r3", .negative⟩)], true⟩)] "1d" = some e := ⟨_, rfl⟩
    have hc := C7_disagreement (1 / 5)
      [("A", ⟨"A", [("1d", ⟨100, "r1", .positive⟩)], true⟩),
       ("B", ⟨"B", [("1d", ⟨110, "r2", .positive⟩)], true⟩),
       ("C", ⟨"C", [("1d", ⟨90, "r3", .negative⟩)], true⟩)] "1d" e he
    have hpl : (periodPredictionsFor
        [("A", ⟨"A", [("1d", ⟨100, "r1", .positive⟩)], true⟩),
         ("B", ⟨"B", [("1d", ⟨110, "r2", .positive⟩)], true⟩),
         ("C", ⟨"C", [("1d", ⟨90, "r3", .negative⟩)], true⟩)] "1d").map
        (fun pp => pp.price) = [100, 110, 90] := by decide
    rw [hpl] at hc
    refine ⟨e, he, ?_⟩
    rw [hc.2 (by rw [meanPrice_ex3]; norm_num), meanPrice_ex3, stdDevOf_ex3]
    norm_num
  · obtain ⟨e, he⟩ : ∃ e, calcPeriodEnsemble (1 / 5)
        [("A", ⟨"A", [("1d", ⟨100, "r1", .positive⟩)], true⟩),
         ("B", ⟨"B", [("1d", ⟨150, "r2", .positive⟩)], true⟩)] "1d" = some e := ⟨_, rfl⟩
    have hc := C7_disagreement (1 / 5)
      [("A", ⟨"A", [("1d", ⟨100, "r1", .positive⟩)], true⟩),
       ("B", ⟨"B", [("1d", ⟨150, "r2", .positive⟩)], true⟩)] "1d" e he
    have hpl : (periodPredictionsFor
        [("A", ⟨"A", [("1d", ⟨100, "r1", .positive⟩)], true⟩),
         ("B", ⟨"B", [("1d", ⟨150, "r2", .positive⟩)], true⟩)] "1d").map
        (fun pp => pp.price) = [100, 150] := by decide
    rw [hpl] at hc
    refine ⟨e, he, ?_⟩
    rw [hc.2 (by rw [meanPrice_ex2]; norm_num), meanPrice_ex2, stdDevOf_ex2]
    rw [show ((1250 : ℚ) : ℝ) = 1250 by norm_num,
      show ((125 : ℚ) : ℝ) = 125 by norm_num]
    rw [lt_div_iff₀ (by norm_num : (0 : ℝ) < 125)]
    have h25 : (25 : ℝ) < Real.sqrt 1250 :=
      (Real.lt_sqrt (by norm_num : (0 : ℝ) ≤ 25)).mpr (by norm_num)
    calc ((1 : ℚ) / 5 : ℚ) * (125 : ℝ) = 25 := by push_cast; norm_num
    _ < Real.sqrt 1250 := h25
